import Mathlib

/-!
Verification model of the timetable generator (the `TimetableGenerator` class
of the repository's generation module).  The generator works on a per-batch
weekly grid of (day, time-slot) cells; days and slots are modelled
positionally (day labels and slot labels never influence the algorithms,
which iterate the key sets in insertion order, i.e. in grid order).

JavaScript `Math.random()` draws are modelled as explicit inputs: every
function that draws randomness receives the outcomes as parameters
(`Nat` picks are reduced by `%` of the relevant length, exactly covering
`Math.floor(Math.random() * length)`; the float priorities of the greedy
strategy are taken as an arbitrary `ℚ`-valued stream).  JavaScript numbers
are modelled as `Nat` / `ℚ`; each place where `Nat` truncated subtraction
could diverge from JavaScript's signed arithmetic is noted at the
definition and checked to agree on the observable result.
-/

namespace Smart

/-! ### String helpers

`strIncludes s pat` models JavaScript `s.includes(pat)` (substring test);
`natOfDigits` and `parseTimeMinutes` model `"HH:MM".split(':').map(Number)`
followed by `hour * 60 + minute`, for well-formed time strings (the `NaN`
propagation of malformed strings is outside the spec's "HH:MM" contract).
These are written over `List Char` so they compute by structural recursion. -/

def charListHasPre : List Char → List Char → Bool
  | [], _ => true
  | _ :: _, [] => false
  | p :: ps, c :: cs => p == c && charListHasPre ps cs

def charListHasSub (pat : List Char) : List Char → Bool
  | [] => charListHasPre pat []
  | c :: cs => charListHasPre pat (c :: cs) || charListHasSub pat cs

def strIncludes (s pat : String) : Bool :=
  charListHasSub pat.toList s.toList

def splitColonGo (cur : List Char) : List Char → List (List Char)
  | [] => [cur.reverse]
  | c :: cs => if c == ':' then cur.reverse :: splitColonGo [] cs else splitColonGo (c :: cur) cs

def splitColon (s : List Char) : List (List Char) :=
  splitColonGo [] s

def natOfDigits (l : List Char) : Nat :=
  l.foldl (fun acc c => acc * 10 + (c.toNat - 48)) 0

def parseTimeMinutes (s : String) : Nat :=
  match splitColon s.toList with
  | [h, m] => natOfDigits h * 60 + natOfDigits m
  | _ => 0

/-! ### Slot Grid Builder (`generateTimeSlots`)

The source loops `for (let minutes = start; minutes < end && slots.length <
maxClasses; minutes += 60)`, pushing the label `"HH:MM-HH:MM"` of the hour
starting at `minutes`.  `pad2` is `String.padStart(2, '0')` for the values
that occur (hours/minutes below 100).  The loop is phrased with the
remaining-slot budget `maxClasses - slots.length` as the structural fuel. -/

def pad2 (n : Nat) : String :=
  if n < 10 then "0" ++ toString n else toString n

def slotLabel (minutes : Nat) : String :=
  pad2 (minutes / 60) ++ ":" ++ pad2 (minutes % 60) ++ "-" ++
    pad2 ((minutes + 60) / 60) ++ ":" ++ pad2 ((minutes + 60) % 60)

def genSlotsGo (endM : Nat) : Nat → Nat → List String
  | _, 0 => []
  | minutes, budget + 1 =>
    if minutes < endM then slotLabel minutes :: genSlotsGo endM (minutes + 60) budget
    else []

def generateTimeSlots (maxClasses : Nat) (startTime endTime : String) : List String :=
  genSlotsGo (parseTimeMinutes endTime) (parseTimeMinutes startTime) maxClasses

/-! ### Data model

`ClassInfo` is the source's `ClassInfo` (`color` is an optional display
colour).  A `Batch.schedule` is the day-indexed list of slot-indexed rows;
a cell is `none` exactly where the source stores `null`.  `Timetable`
carries the batches; the `fitness` / `conflicts` / `algorithm` annotations
the source attaches to a finished timetable are returned separately by the
model (`calculateFitness`, `detectConflicts`), which is what every claim
observes. -/

structure ClassInfo where
  subject : String
  faculty : String
  room : String
  color : Option String
deriving DecidableEq, Repr

structure Batch where
  id : Nat
  name : String
  schedule : List (List (Option ClassInfo))
deriving DecidableEq, Repr

structure Timetable where
  batches : List Batch
deriving DecidableEq, Repr

def emptyBatch : Batch := ⟨0, "", []⟩

/-- Cell of a batch at day `d`, slot `s` (the source's
`batch.schedule[day][slot]`). -/
def batchCell (b : Batch) (d s : Nat) : Option ClassInfo :=
  ((b.schedule.getD d []).getD s none)

/-- In-place update `batch.schedule[day][slot] = v` of the source, as a
functional update. -/
def batchSetCell (b : Batch) (d s : Nat) (v : Option ClassInfo) : Batch :=
  { b with schedule := b.schedule.set d ((b.schedule.getD d []).set s v) }

def cellAt (t : Timetable) (bi d s : Nat) : Option ClassInfo :=
  batchCell (t.batches.getD bi emptyBatch) d s

def setCellAt (t : Timetable) (bi d s : Nat) (v : Option ClassInfo) : Timetable :=
  ⟨t.batches.set bi (batchSetCell (t.batches.getD bi emptyBatch) d s v)⟩

/-! ### Generator context

`Gen` collects the fields of a constructed `TimetableGenerator`:
`subjectsAll` / `faculty` are `courseData`, the `p*` fields are the
`parameters`, `numDays = workingDays.length` (day labels are positional),
and `slotsPerDay = timeSlots.length` where `timeSlots =
generateTimeSlots(startTime, endTime)`; the constructor caps that length by
`maxClasses`, so `slotsPerDay ≤ pMaxClasses` holds for every generator the
source can build, but it is not baked into the structure. -/

structure Gen where
  subjectsAll : List String
  faculty : List String
  pClassrooms : Nat
  pBatches : Nat
  pSubjects : Nat
  pMaxClasses : Nat
  pFrequency : Nat
  numDays : Nat
  slotsPerDay : Nat
deriving Repr

/-- Fixed room pool of the source (`this.rooms`). -/
def roomsList : List String :=
  ["Room-101", "Room-102", "Room-103", "Lab-A", "Lab-B", "Hall-1", "Hall-2", "Auditorium"]

/-- Colour palette of `generateSubjectColors`. -/
def colorsList : List String :=
  ["#3B82F6", "#EF4444", "#10B981", "#F59E0B", "#8B5CF6",
   "#EC4899", "#06B6D4", "#84CC16", "#F97316", "#6366F1",
   "#14B8A6", "#F43F5E", "#8B5A2B", "#059669", "#7C3AED"]

/-- Lookup in `this.subjectColors` (built by `generateSubjectColors` over the
full `courseData.subjects` with `colors[index % colors.length]`; a later
duplicate key overwrites an earlier one, hence the reverse-first search). -/
def subjectColor (g : Gen) (s : String) : Option String :=
  ((g.subjectsAll.enum.reverse.find? (fun p => p.2 == s)).map
    (fun p => colorsList.getD (p.1 % colorsList.length) ""))

/-- The sliced subject list `courseData.subjects.slice(0, parameters.subjects)`
used by the strategies and the gap filler. -/
def Gen.subjectsSel (g : Gen) : List String :=
  g.subjectsAll.take g.pSubjects

/-- Usable room count `Math.min(this.rooms.length, parameters.classrooms)`. -/
def usableRoomCount (g : Gen) : Nat :=
  min roomsList.length g.pClassrooms

/-- Per-day slot count after `timeSlots.slice(0, parameters.maxClasses)`. -/
def scanSlots (g : Gen) : Nat :=
  min g.slotsPerDay g.pMaxClasses

/-- Day-major, slot-minor enumeration of the week's grid coordinates: the
iteration order of `createEmptyTimetable`, `getOptimalSlotOrder` and the
counting / empty-slot scan of `fillGaps` (all of which run the days outer
loop over `this.days` and the slots inner loop over
`timeSlots.slice(0, maxClasses)`). -/
def gridCoords (g : Gen) : List (Nat × Nat) :=
  (List.range g.numDays).flatMap (fun d => (List.range (scanSlots g)).map (fun s => (d, s)))

/-- Grid over the unsliced `this.timeSlots`, used by the subject-count loop
inside `fillGaps` (`this.days` × `this.timeSlots`). -/
def fullCoords (g : Gen) : List (Nat × Nat) :=
  (List.range g.numDays).flatMap (fun d => (List.range g.slotsPerDay).map (fun s => (d, s)))

/-- Model of `createEmptyTimetable`. -/
def createEmptyTimetable (g : Gen) : Timetable :=
  ⟨(List.range g.pBatches).map (fun b =>
    { id := b
      name := "Batch " ++ toString (b + 1)
      schedule := List.replicate g.numDays (List.replicate (scanSlots g) none) })⟩

/-! ### Constraint Checker (`isValidAssignment`) -/

/-- Candidate assignment record handed to `isValidAssignment` (the source
spreads extra fields such as `priority` into it; only these are read). -/
structure Assignment where
  subject : String
  faculty : String
  room : String
  batch : Nat
  day : Nat
  slot : Nat
deriving DecidableEq, Repr

/-- Model of `isValidAssignment`: scan every batch, skipping the candidate's
own (`batch.id === assignment.batch`); an occupied cell at the candidate's
coordinate rejects on equal faculty, or on equal room when the candidate
room is not a lab (`!assignment.room.includes('Lab')`). -/
def isValidAssignment (t : Timetable) (a : Assignment) : Bool :=
  t.batches.all (fun b =>
    if b.id == a.batch then true
    else
      match batchCell b a.day a.slot with
      | none => true
      | some c =>
        !(c.faculty == a.faculty || (c.room == a.room && !(strIncludes a.room "Lab"))))

/-! ### Conflict Detector (`detectConflicts`) -/

inductive ConflictKind where
  | facultyKind
  | roomKind
deriving DecidableEq, Repr

/-- Structural content of a conflict record (the `description` / `details`
strings the source also attaches are display text derived from these
fields). -/
structure Conflict where
  kind : ConflictKind
  day : Nat
  slot : Nat
  batches : Nat × Nat
  resource : String
  severity : String
deriving DecidableEq, Repr

/-- Inner loop body of `detectConflicts` for a fixed occupied cell
`(bi, di, si) ↦ c1` against one other batch `op` (index, batch):
`batchIndex === otherBatchIndex` is skipped, an occupied cell of the other
batch at the same coordinate contributes a faculty conflict on equal
faculty and, independently, a room conflict on equal non-lab room. -/
def emitPair (bi di si : Nat) (c1 : ClassInfo) (op : Nat × Batch) : List Conflict :=
  if bi == op.1 then []
  else
    match batchCell op.2 di si with
    | none => []
    | some c2 =>
      (if c1.faculty == c2.faculty then
        [{ kind := ConflictKind.facultyKind, day := di, slot := si,
           batches := (bi, op.1), resource := c1.faculty, severity := "high" }]
       else []) ++
      (if c1.room == c2.room && !(strIncludes c1.room "Lab") then
        [{ kind := ConflictKind.roomKind, day := di, slot := si,
           batches := (bi, op.1), resource := c1.room, severity := "medium" }]
       else [])

/-- Conflicts emitted for one cell of the scan (`if (!class1) return;` then
the loop over all batches). -/
def emitCell (t : Timetable) (bi di si : Nat) (cell : Option ClassInfo) : List Conflict :=
  match cell with
  | none => []
  | some c1 => t.batches.enum.flatMap (emitPair bi di si c1)

/-- Model of `detectConflicts`: scan every batch's every (day, slot) cell in
order and emit `emitCell`. -/
def detectConflicts (t : Timetable) : List Conflict :=
  t.batches.enum.flatMap (fun bp =>
    bp.2.schedule.enum.flatMap (fun dp =>
      dp.2.enum.flatMap (fun sp => emitCell t bp.1 dp.1 sp.1 sp.2)))

/-- Condition under which the scan of `detectConflicts` reports a faculty
collision for the ordered batch pair `(x, y)` at `(d, s)`: both cells
occupied with the same faculty.  (An occupied cell forces the indices into
range, so no separate bounds are needed.) -/
def facultyHit (t : Timetable) (x y d s : Nat) : Bool :=
  match cellAt t x d s, cellAt t y d s with
  | some c1, some c2 => c1.faculty == c2.faculty
  | _, _ => false

/-- Condition under which the scan of `detectConflicts` reports a room
collision for the ordered batch pair `(x, y)` at `(d, s)`: both cells
occupied with the same non-lab room (the lab test reads the scanning
batch's room, which equals the other batch's room when it fires). -/
def roomHit (t : Timetable) (x y d s : Nat) : Bool :=
  match cellAt t x d s, cellAt t y d s with
  | some c1, some c2 => c1.room == c2.room && !(strIncludes c1.room "Lab")
  | _, _ => false

/-! ### Fitness Evaluator (`calculateFitness` and helpers) -/

/-- Walk of `calculateGapPenalty`: `inSeq` is the source's `inSequence`
flag; an empty cell seen after some filled cell, with a filled cell still
ahead, adds 2. -/
def gapPenaltyGo : Bool → List (Option ClassInfo) → Nat
  | _, [] => 0
  | inSeq, c :: rest =>
    match c with
    | some _ => gapPenaltyGo true rest
    | none => (if inSeq && rest.any (fun x => x.isSome) then 2 else 0) + gapPenaltyGo inSeq rest

def calculateGapPenalty (row : List (Option ClassInfo)) : Nat :=
  gapPenaltyGo false row

/-- All subjects of occupied cells, in the scan order of
`calculateSubjectDistribution` (batches, then days, then slots). -/
def timetableSubjects (t : Timetable) : List String :=
  t.batches.flatMap (fun b =>
    b.schedule.flatMap (fun row => row.filterMap (fun c => c.map (fun x => x.subject))))

/-- Multiset of per-subject occurrence counts (the `Object.values` of the
source's `subjectCounts` record; only its length, sum and variance are ever
consumed, all order-invariant, so the dedup order is immaterial). -/
def countsListQ (t : Timetable) : List ℚ :=
  (timetableSubjects t).dedup.map (fun s => ((timetableSubjects t).count s : ℚ))

/-- Model of `calculateSubjectDistribution` (population variance of the
per-subject counts; an empty record short-circuits to 0). -/
def calculateSubjectDistribution (t : Timetable) : ℚ :=
  let counts := countsListQ t
  if counts.length = 0 then 0
  else
    let mean := counts.sum / (counts.length : ℚ)
    let variance := (counts.map (fun c => ((c - mean) ^ 2 : ℚ))).sum / (counts.length : ℚ)
    max 0 (15 - variance)

/-- Filled cells over every batch's own schedule (the source accumulates
`daySlots` per day of each batch). -/
def filledSlotCount (t : Timetable) : Nat :=
  (t.batches.flatMap (fun b => b.schedule.flatMap (fun r => r))).countP (fun c => c.isSome)

def totalSlotCount (t : Timetable) : Nat :=
  (t.batches.flatMap (fun b => b.schedule.flatMap (fun r => r))).length

/-- Gap penalty summed over every batch and day; the source rebuilds each
day row by reading `this.timeSlots.slice(0, maxClasses)` keys off the day
map, hence the `(List.range (scanSlots g)).map` re-indexing. -/
def totalGapPenalty (g : Gen) (t : Timetable) : Nat :=
  ((t.batches.flatMap (fun b => b.schedule)).map
    (fun row => calculateGapPenalty ((List.range (scanSlots g)).map (fun s => row.getD s none)))).sum

/-- Fill ratio `filledSlots / totalSlots` (0 when the grid is empty). -/
def fillFrac (t : Timetable) : ℚ :=
  if 0 < totalSlotCount t then (filledSlotCount t : ℚ) / (totalSlotCount t : ℚ) else 0

/-- Model of `calculateFitness`, accumulating the terms in source order. -/
def calculateFitness (g : Gen) (t : Timetable) : ℚ :=
  let conflictCount := (detectConflicts t).length
  let r := fillFrac t
  let utilizationScore : ℚ :=
    if r ≤ 85 / 100 then r * 50 else (85 / 100) * 50 - (r - 85 / 100) * 20
  let fitness : ℚ :=
    100 - (conflictCount : ℚ) * 25 + utilizationScore - (totalGapPenalty g t : ℚ) * 5
      + calculateSubjectDistribution t * 8
      + (if r > 8 / 10 then (r - 8 / 10) * 100 else 0)
  max 0 fitness

/-! ### Spec-side fitness formula

These restate §4.5 of the specification word for word, to be compared with
`calculateFitness`. -/

def varianceQ (l : List ℚ) : ℚ :=
  (l.map (fun c => ((c - l.sum / (l.length : ℚ)) ^ 2 : ℚ))).sum / (l.length : ℚ)

def utilizationScoreSpec (r : ℚ) : ℚ :=
  if r ≤ 85 / 100 then 50 * r else (85 / 100) * 50 - (r - 85 / 100) * 20

def distributionScoreSpec (t : Timetable) : ℚ :=
  max 0 (15 - varianceQ (countsListQ t))

def bonusSpec (r : ℚ) : ℚ :=
  max 0 (r - 8 / 10) * 100

def fitnessSpec (g : Gen) (t : Timetable) : ℚ :=
  max 0 (100 - 25 * ((detectConflicts t).length : ℚ) + utilizationScoreSpec (fillFrac t)
    - 5 * (totalGapPenalty g t : ℚ) + 8 * distributionScoreSpec t + bonusSpec (fillFrac t))

/-! ### Gap-Filling Optimizer (`fillGaps`)

The source deep-copies the timetable, then walks the batches in order,
mutating each in place; `isValidAssignment` is checked against the whole
partially-updated timetable (earlier batches already gap-filled, later ones
still original, the current batch skipped by id).  That walk is modelled by
`fillGapsGo` threading the processed prefix `done` and untouched suffix
`rest`.  One `Math.random()` draw happens per processed empty coordinate
(the min-count subject tie-break); the draws are the `picks` list. -/

/-- Occurrences of subject `s` in a batch's grid: the counting loop the
source reruns before each fill (`this.days` × `this.timeSlots`; only keys
pre-seeded from the sliced subject list exist in `subjectCounts`, so for
`s ∈ subjectsSel` this is a plain count). -/
def batchSubjectCount (g : Gen) (b : Batch) (s : String) : Nat :=
  (fullCoords g).countP (fun c =>
    match batchCell b c.1 c.2 with
    | some ci => ci.subject == s
    | none => false)

/-- The per-batch `currentFilledSlots` counter of `fillGaps` (occupied
cells over the day-major scan of the grid). -/
def filledCountG (g : Gen) (b : Batch) : Nat :=
  (gridCoords g).countP (fun c => (batchCell b c.1 c.2).isSome)

/-- The per-batch `emptySlots` list of `fillGaps`, in scan order. -/
def emptyCoordsG (g : Gen) (b : Batch) : List (Nat × Nat) :=
  (gridCoords g).filter (fun c => !(batchCell b c.1 c.2).isSome)

/-- One processed empty coordinate of `fillGaps`: pick the least-frequent
subject (random tie-break), derive faculty by `subjectIndex % faculty.length`
and room by `batch.id % usableRoomCount`, place only if the Constraint
Checker accepts.  With an empty subject list the source's
`Math.min()` = Infinity leaves no candidates and `undefined` fields, modelled
by the `""` defaults (the fill-count bound is insensitive to the placed
values). -/
def fillGapsStep (g : Gen) (done rest : List Batch) (st : Batch × List Nat)
    (coord : Nat × Nat) : Batch × List Nat :=
  let b := st.1
  let pick := st.2.headD 0
  let counts := g.subjectsSel.map (fun s => batchSubjectCount g b s)
  let minCount := match counts with | [] => 0 | c :: cs => cs.foldl min c
  let cands := g.subjectsSel.filter (fun s => batchSubjectCount g b s == minCount)
  let selected := cands.getD (pick % cands.length) ""
  let fac :=
    match g.subjectsSel.indexOf? selected with
    | some i => g.faculty.getD (i % g.faculty.length) ""
    | none => ""
  let room := roomsList.getD (b.id % usableRoomCount g) ""
  let b2 :=
    if isValidAssignment ⟨done ++ b :: rest⟩ ⟨selected, fac, room, b.id, coord.1, coord.2⟩ then
      batchSetCell b coord.1 coord.2 (some ⟨selected, fac, room, subjectColor g selected⟩)
    else b
  (b2, st.2.tail)

/-- Per-batch pass of `fillGaps`.  `totalSlots` is the source's
`this.days.length * this.parameters.maxClasses` (not the actual grid size —
they agree only when the time window supplies `maxClasses` slots).  The
`Nat` truncations agree with the source's signed
`Math.min(emptyCount, maxAllowed - filled)` then `Math.max(0, ·)`:
a negative JavaScript value and the truncated-to-0 `Nat` value both process
no coordinates. -/
def fillGapsBatch (g : Gen) (done rest : List Batch) (b : Batch) (picks : List Nat) :
    Batch × List Nat :=
  let filled := filledCountG g b
  let empties := emptyCoordsG g b
  let totalSlots := g.numDays * g.pMaxClasses
  let toFill := empties.take (min empties.length (totalSlots - 1 - filled))
  toFill.foldl (fillGapsStep g done rest) (b, picks)

def fillGapsGo (g : Gen) : List Batch → List Batch → List Nat → List Batch
  | done, [], _ => done
  | done, b :: rest, picks =>
    let p := fillGapsBatch g done rest b picks
    fillGapsGo g (done ++ [p.1]) rest p.2

def fillGaps (g : Gen) (t : Timetable) (picks : List Nat) : Timetable :=
  ⟨fillGapsGo g [] t.batches picks⟩

/-! ### Constraint-first (greedy) strategy (`constraintProgramming`) -/

/-- Model of `calculateOptimalClassCount`.  `totalSlots * 82 / 100` equals
the source's `Math.floor(totalSlots * 0.82)`: the double nearest 0.82 is
0.82 + 6.2e-18, and for any slot count below 2^49 the product stays far
closer to `totalSlots * 41 / 50` than to the next integer, so the floors
agree. -/
def calculateOptimalClassCount (g : Gen) : Nat :=
  let totalSlotsPerBatch := g.numDays * g.pMaxClasses
  let maxClassesPerBatch := totalSlotsPerBatch - 1
  let targetClassesPerBatch := totalSlotsPerBatch * 82 / 100
  (min targetClassesPerBatch maxClassesPerBatch) * g.pBatches

/-- Model of `getOptimalSlotOrder` (day-major, slot-minor, capped by
`Math.min(timeSlots.length, maxClasses)`). -/
def getOptimalSlotOrder (g : Gen) : List (Nat × Nat) :=
  gridCoords g

/-- Assignment request of the greedy strategy, priority included. -/
structure SourceAssign where
  subject : String
  faculty : String
  batch : Nat
  room : String
  priority : ℚ
deriving DecidableEq, Repr

/-- The `actualFrequency = max(frequency, ceil(totalClassesNeeded /
(subjects.length * batches)))` of the source; a zero divisor gives
`Infinity` in JavaScript (a non-terminating request loop), kept out of the
model by falling back to the configured frequency. -/
def cpActualFrequency (g : Gen) : Nat :=
  let d := g.subjectsSel.length * g.pBatches
  if d = 0 then g.pFrequency
  else max g.pFrequency ((calculateOptimalClassCount g + d - 1) / d)

/-- Request quadruples (subject, subjectIndex, freq, batch) in the source's
generation order (subjects outer, frequency middle, batches inner). -/
def cpRequests (g : Gen) : List (String × Nat × Nat × Nat) :=
  g.subjectsSel.enum.flatMap (fun sp =>
    (List.range (cpActualFrequency g)).flatMap (fun freq =>
      (List.range g.pBatches).map (fun b => (sp.2, sp.1, freq, b))))

/-- Requests expanded to assignment records; `prio k` is the `k`-th
`Math.random()` priority draw, bumped by 1 inside the configured frequency
and by 0.5 beyond it. -/
def cpAssignments (g : Gen) (prio : Nat → ℚ) : List SourceAssign :=
  (cpRequests g).enum.map (fun kp =>
    { subject := kp.2.1
      faculty := g.faculty.getD (kp.2.2.1 % g.faculty.length) ""
      batch := kp.2.2.2.2
      room := roomsList.getD (kp.2.2.2.2 % usableRoomCount g) ""
      priority := prio kp.1 + (if kp.2.2.2.1 < g.pFrequency then 1 else 1 / 2) })

/-- Stable insertion step for descending priority: walk past entries whose
priority is at least the new one (so equal priorities keep their original
relative order). -/
def insertByPrio (a : SourceAssign) : List SourceAssign → List SourceAssign
  | [] => [a]
  | b :: t => if a.priority ≤ b.priority then b :: insertByPrio a t else a :: b :: t

/-- The source's `assignments.sort((a, b) => b.priority - a.priority)`:
JavaScript's sort is stable, and the stable descending reordering is
unique, here realised as a stable insertion sort. -/
def cpSorted (g : Gen) (prio : Nat → ℚ) : List SourceAssign :=
  (cpAssignments g prio).foldl (fun acc a => insertByPrio a acc) []

/-- Placement of one request: first coordinate in optimal slot order whose
cell (in the request's batch) is empty and which the Constraint Checker
accepts; an unplaceable request is dropped. -/
def cpPlace (g : Gen) (t : Timetable) (a : SourceAssign) : Timetable :=
  match (getOptimalSlotOrder g).find? (fun c =>
      !(cellAt t a.batch c.1 c.2).isSome &&
        isValidAssignment t ⟨a.subject, a.faculty, a.room, a.batch, c.1, c.2⟩) with
  | none => t
  | some c =>
    setCellAt t a.batch c.1 c.2 (some ⟨a.subject, a.faculty, a.room, subjectColor g a.subject⟩)

/-- Model of `constraintProgramming` up to the returned schedule (the
fitness / conflicts annotations are computed by the separate evaluators):
place the sorted requests greedily, then run the gap filler. -/
def constraintProgramming (g : Gen) (prio : Nat → ℚ) (picks : List Nat) : Timetable :=
  fillGaps g ((cpSorted g prio).foldl (cpPlace g) (createEmptyTimetable g)) picks

/-! ### Genetic operators (`mutate`, `crossover`) -/

/-- Outcomes of the `Math.random()` draws of one `mutate` call. -/
structure MutRand where
  batchPick : Nat
  emptyPick : Nat
  filledPick : Nat
  dayPick1 : Nat
  dayPick2 : Nat
  slotPick1 : Nat
  slotPick2 : Nat
deriving Repr

def batchEmptyCoords (b : Batch) : List (Nat × Nat) :=
  b.schedule.enum.flatMap (fun dp =>
    dp.2.enum.filterMap (fun sp => if sp.2.isSome then none else some (dp.1, sp.1)))

def batchFilledCoords (b : Batch) : List (Nat × Nat) :=
  b.schedule.enum.flatMap (fun dp =>
    dp.2.enum.filterMap (fun sp => if sp.2.isSome then some (dp.1, sp.1) else none))

/-- Model of `mutate`: deep-copy, pick one random batch; if it has both an
empty and a filled slot, move a random filled class into a random empty
slot, otherwise swap two random coordinates.  Only the picked batch is
rebuilt. -/
def mutate (r : MutRand) (t : Timetable) : Timetable :=
  let bi := r.batchPick % t.batches.length
  let b := t.batches.getD bi emptyBatch
  let empties := batchEmptyCoords b
  let filleds := batchFilledCoords b
  let b2 :=
    if 0 < empties.length ∧ 0 < filleds.length then
      let e := empties.getD (r.emptyPick % empties.length) (0, 0)
      let f := filleds.getD (r.filledPick % filleds.length) (0, 0)
      batchSetCell (batchSetCell b e.1 e.2 (batchCell b f.1 f.2)) f.1 f.2 none
    else
      let d1 := r.dayPick1 % b.schedule.length
      let d2 := r.dayPick2 % b.schedule.length
      let s1 := r.slotPick1 % (b.schedule.getD d1 []).length
      let s2 := r.slotPick2 % (b.schedule.getD d2 []).length
      let tmp := batchCell b d1 s1
      batchSetCell (batchSetCell b d1 s1 (batchCell b d2 s2)) d2 s2 tmp
  ⟨t.batches.set bi b2⟩

/-- Model of `crossover`: offspring is a deep copy of parent 1; on the back
half of the day ordering (`dayIndex ≥ this.days.length / 2`, i.e.
`2 * dayIndex ≥ numDays`), parent-2 classes are copied into offspring cells
that are empty. -/
def crossover (g : Gen) (p1 p2 : Timetable) : Timetable :=
  ⟨p1.batches.enum.map (fun bp =>
    { bp.2 with
      schedule := bp.2.schedule.enum.map (fun dp =>
        if 2 * dp.1 ≥ g.numDays then
          dp.2.enum.map (fun sp =>
            match sp.2 with
            | some c => some c
            | none => batchCell (p2.batches.getD bp.1 emptyBatch) dp.1 sp.1)
        else dp.2) })⟩

/-! ### General list lemmas -/

theorem countP_flatMap {α β : Type} (l : List α) (f : α → List β) (p : β → Bool) :
    (l.flatMap f).countP p = (l.map (fun a => (f a).countP p)).sum := by
  induction l with
  | nil => simp
  | cons a tl ih => simp [List.countP_append, ih]

theorem sum_map_zero {α : Type} (l : List α) (f : α → Nat)
    (h : ∀ x ∈ l, f x = 0) : (l.map f).sum = 0 := by
  induction l with
  | nil => simp
  | cons a tl ih =>
    simp only [List.map_cons, List.sum_cons, h a (List.mem_cons_self a tl), Nat.zero_add]
    exact ih (fun x hx => h x (List.mem_cons_of_mem a hx))

theorem fst_ge_of_mem_enumFrom {α : Type} :
    ∀ (l : List α) (n : Nat) (p : Nat × α), p ∈ l.enumFrom n → n ≤ p.1 := by
  intro l
  induction l with
  | nil => intro n p hp; simp [List.enumFrom] at hp
  | cons a tl ih =>
    intro n p hp
    simp only [List.enumFrom, List.mem_cons] at hp
    rcases hp with h | h
    · simp [h]
    · exact Nat.le_of_succ_le (ih (n + 1) p h)

theorem sum_map_enumFrom_single {α : Type} (f : Nat × α → Nat) (k : Nat) :
    ∀ (l : List α) (n : Nat), n ≤ k →
      (∀ p ∈ l.enumFrom n, p.1 ≠ k → f p = 0) →
      ((l.enumFrom n).map f).sum = (l[k - n]?.elim 0 (fun a => f (k, a))) := by
  intro l
  induction l with
  | nil => intro n _ _; simp
  | cons a tl ih =>
    intro n hnk h0
    simp only [List.enumFrom, List.map_cons, List.sum_cons]
    by_cases hk : n = k
    · subst hk
      have hrest : ((tl.enumFrom (n + 1)).map f).sum = 0 := by
        refine sum_map_zero _ _ (fun p hp => ?_)
        have := fst_ge_of_mem_enumFrom tl (n + 1) p hp
        exact h0 p (List.mem_cons_of_mem _ hp) (by omega)
      simp [hrest]
    · have ha : f (n, a) = 0 := h0 (n, a) (List.mem_cons_self _ _) (by simpa using hk)
      have hrec := ih (n + 1) (by omega) (fun p hp hpk => h0 p (List.mem_cons_of_mem _ hp) hpk)
      have hidx : k - n = (k - (n + 1)) + 1 := by omega
      rw [ha, hrec, hidx]
      simp

theorem sum_map_enum_single {α : Type} (f : Nat × α → Nat) (k : Nat) (l : List α)
    (h0 : ∀ p ∈ l.enum, p.1 ≠ k → f p = 0) :
    ((l.enum).map f).sum = (l[k]?.elim 0 (fun a => f (k, a))) := by
  have := sum_map_enumFrom_single f k l 0 (Nat.zero_le k) (by simpa [List.enum] using h0)
  simpa [List.enum] using this

theorem countP_or_disjoint {α : Type} (l : List α) (p q : α → Bool)
    (h : ∀ x ∈ l, ¬(p x = true ∧ q x = true)) :
    l.countP (fun x => p x || q x) = l.countP p + l.countP q := by
  induction l with
  | nil => simp
  | cons a tl ih =>
    have hih := ih (fun x hx => h x (List.mem_cons_of_mem a hx))
    have ha := h a (List.mem_cons_self a tl)
    simp only [List.countP_cons, hih]
    cases hp : p a <;> cases hq : q a <;> simp_all <;> omega

/-! ### Structure of the Conflict Detector's output -/

theorem emitPair_shape (bi di si : Nat) (c1 : ClassInfo) (op : Nat × Batch) :
    ∀ c ∈ emitPair bi di si c1 op, c.day = di ∧ c.slot = si ∧ c.batches = (bi, op.1) := by
  intro c hc
  unfold emitPair at hc
  split at hc
  · simp at hc
  · split at hc
    · simp at hc
    · rw [List.mem_append] at hc
      rcases hc with hc | hc <;> split at hc <;> simp at hc <;> simp [hc]

theorem emitCell_shape (t : Timetable) (bi di si : Nat) (cell : Option ClassInfo) :
    ∀ c ∈ emitCell t bi di si cell, c.day = di ∧ c.slot = si ∧ c.batches.1 = bi := by
  intro c hc
  unfold emitCell at hc
  split at hc
  · simp at hc
  · rw [List.mem_flatMap] at hc
    obtain ⟨op, _, hop⟩ := hc
    have := emitPair_shape bi di si _ op c hop
    exact ⟨this.1, this.2.1, by rw [this.2.2]⟩

/-- Predicate picking the FacultyConflict entries of the ordered batch pair
`(x, y)` at `(d, s)`. -/
def facPairPred (x y d s : Nat) (c : Conflict) : Bool :=
  c.kind == ConflictKind.facultyKind && c.day == d && c.slot == s && c.batches == (x, y)

theorem countP_emitPair_fac (x y d s : Nat) (hxy : x ≠ y) (c1 : ClassInfo) (b2 : Batch) :
    (emitPair x d s c1 (y, b2)).countP (facPairPred x y d s) =
      (match batchCell b2 d s with
       | some c2 => if c1.faculty == c2.faculty then 1 else 0
       | none => 0) := by
  unfold emitPair
  rw [if_neg (by simpa using hxy)]
  cases hcell : batchCell b2 d s with
  | none => simp
  | some c2 =>
    rw [List.countP_append]
    have hroom :
        (if c1.room == c2.room && !(strIncludes c1.room "Lab") then
          [{ kind := ConflictKind.roomKind, day := d, slot := s,
             batches := (x, y), resource := c1.room, severity := "medium" }]
         else ([] : List Conflict)).countP (facPairPred x y d s) = 0 := by
      split <;> simp [facPairPred]
    have hfac :
        (if c1.faculty == c2.faculty then
          [{ kind := ConflictKind.facultyKind, day := d, slot := s,
             batches := (x, y), resource := c1.faculty, severity := "high" }]
         else ([] : List Conflict)).countP (facPairPred x y d s) =
          (if c1.faculty == c2.faculty then 1 else 0) := by
      split <;> simp [facPairPred]
    rw [hroom, hfac]
    simp

theorem countP_emitCell_fac (t : Timetable) (x y d s : Nat) (hxy : x ≠ y)
    (cell : Option ClassInfo) :
    (emitCell t x d s cell).countP (facPairPred x y d s) =
      (match cell, batchCell (t.batches.getD y emptyBatch) d s with
       | some c1, some c2 => if c1.faculty == c2.faculty then 1 else 0
       | _, _ => 0) := by
  cases cell with
  | none => simp [emitCell]
  | some c1 =>
    show ((t.batches.enum.flatMap (emitPair x d s c1)).countP (facPairPred x y d s)) = _
    rw [countP_flatMap]
    rw [sum_map_enum_single _ y]
    · cases hy : t.batches[y]? with
      | none =>
        have hgd : t.batches.getD y emptyBatch = emptyBatch := by
          rw [List.getD_eq_getElem?_getD, hy]; rfl
        have hnone : batchCell emptyBatch d s = none := rfl
        simp [hy, hgd, hnone]
      | some b2 =>
        have hgd : t.batches.getD y emptyBatch = b2 := by
          rw [List.getD_eq_getElem?_getD, hy]; rfl
        simp only [hy, hgd, Option.elim, Function.comp]
        rw [countP_emitPair_fac x y d s hxy c1 b2]
        cases batchCell b2 d s <;> rfl
    · intro p _ hpy
      refine List.countP_eq_zero.mpr (fun c hc => ?_)
      have hshape := emitPair_shape x d s c1 p c hc
      simp only [facPairPred, Bool.and_eq_true, beq_iff_eq]
      intro hcon
      apply hpy
      have : c.batches = (x, p.1) := hshape.2.2
      rw [this] at hcon
      have := hcon.2
      exact (Prod.mk.injEq _ _ _ _ |>.mp this).2

theorem countP_row_fac (t : Timetable) (x y d s : Nat) (hxy : x ≠ y)
    (row : List (Option ClassInfo)) :
    ((row.enum.flatMap (fun sp => emitCell t x d sp.1 sp.2)).countP (facPairPred x y d s)) =
      (match row.getD s none, batchCell (t.batches.getD y emptyBatch) d s with
       | some c1, some c2 => if c1.faculty == c2.faculty then 1 else 0
       | _, _ => 0) := by
  rw [countP_flatMap, sum_map_enum_single _ s]
  · cases hs : row[s]? with
    | none =>
      have hgd : row.getD s none = none := by rw [List.getD_eq_getElem?_getD, hs]; rfl
      rw [hgd]
      cases batchCell (t.batches.getD y emptyBatch) d s <;> rfl
    | some cell =>
      have hgd : row.getD s none = cell := by rw [List.getD_eq_getElem?_getD, hs]; rfl
      rw [hgd]
      simp only [Option.elim, Function.comp]
      rw [countP_emitCell_fac t x y d s hxy cell]
  · intro p _ hps
    refine List.countP_eq_zero.mpr (fun c hc => ?_)
    have hshape := emitCell_shape t x d p.1 p.2 c hc
    simp only [facPairPred, Bool.and_eq_true, beq_iff_eq]
    intro hcon
    exact hps (by rw [← hshape.2.1, hcon.1.2])

theorem countP_batch_fac (t : Timetable) (x y d s : Nat) (hxy : x ≠ y) (bx : Batch) :
    ((bx.schedule.enum.flatMap (fun dp =>
        dp.2.enum.flatMap (fun sp => emitCell t x dp.1 sp.1 sp.2))).countP
      (facPairPred x y d s)) =
      (match batchCell bx d s, batchCell (t.batches.getD y emptyBatch) d s with
       | some c1, some c2 => if c1.faculty == c2.faculty then 1 else 0
       | _, _ => 0) := by
  rw [countP_flatMap, sum_map_enum_single _ d]
  · cases hd : bx.schedule[d]? with
    | none =>
      have hgd : batchCell bx d s = none := by
        simp [batchCell, List.getD_eq_getElem?_getD, hd]
      rw [hgd]
      cases batchCell (t.batches.getD y emptyBatch) d s <;> rfl
    | some row =>
      have hgd : batchCell bx d s = row.getD s none := by
        simp [batchCell, List.getD_eq_getElem?_getD, hd]
      rw [hgd]
      simp only [Option.elim, Function.comp]
      exact countP_row_fac t x y d s hxy row
  · intro p _ hpd
    refine List.countP_eq_zero.mpr (fun c hc => ?_)
    rw [List.mem_flatMap] at hc
    obtain ⟨sp, _, hsp⟩ := hc
    have hshape := emitCell_shape t x p.1 sp.1 sp.2 c hsp
    simp only [facPairPred, Bool.and_eq_true, beq_iff_eq]
    intro hcon
    exact hpd (by rw [← hshape.1, hcon.1.1.2])

theorem countP_detect_fac (t : Timetable) (x y d s : Nat) (hxy : x ≠ y) :
    (detectConflicts t).countP (facPairPred x y d s) =
      if facultyHit t x y d s then 1 else 0 := by
  unfold detectConflicts
  rw [countP_flatMap, sum_map_enum_single _ x]
  · cases hx : t.batches[x]? with
    | none =>
      have hgd : t.batches.getD x emptyBatch = emptyBatch := by
        rw [List.getD_eq_getElem?_getD, hx]; rfl
      have hhit : facultyHit t x y d s = false := by
        unfold facultyHit cellAt
        rw [hgd]
        rfl
      rw [hhit]
      rfl
    | some bx =>
      have hgd : t.batches.getD x emptyBatch = bx := by
        rw [List.getD_eq_getElem?_getD, hx]; rfl
      simp only [Option.elim, Function.comp]
      rw [countP_batch_fac t x y d s hxy bx]
      unfold facultyHit cellAt
      rw [hgd]
      cases batchCell bx d s <;> cases batchCell (t.batches.getD y emptyBatch) d s <;> simp
  · intro p _ hpx
    refine List.countP_eq_zero.mpr (fun c hc => ?_)
    rw [List.mem_flatMap] at hc
    obtain ⟨dp, _, hdp⟩ := hc
    rw [List.mem_flatMap] at hdp
    obtain ⟨sp, _, hsp⟩ := hdp
    have hshape := emitCell_shape t p.1 dp.1 sp.1 sp.2 c hsp
    simp only [facPairPred, Bool.and_eq_true, beq_iff_eq]
    intro hcon
    apply hpx
    have : c.batches = (p.1, c.batches.2) := by
      rw [← hshape.2.2]
    rw [this] at hcon
    exact (Prod.mk.injEq _ _ _ _ |>.mp hcon.2).1

theorem facultyHit_symm (t : Timetable) (x y d s : Nat) :
    facultyHit t y x d s = facultyHit t x y d s := by
  unfold facultyHit
  cases cellAt t x d s <;> cases cellAt t y d s <;> simp [BEq.comm]

/-- Predicate picking the RoomConflict entries of the ordered batch pair
`(x, y)` at `(d, s)`. -/
def roomPairPred (x y d s : Nat) (c : Conflict) : Bool :=
  c.kind == ConflictKind.roomKind && c.day == d && c.slot == s && c.batches == (x, y)

theorem countP_emitPair_room (x y d s : Nat) (hxy : x ≠ y) (c1 : ClassInfo) (b2 : Batch) :
    (emitPair x d s c1 (y, b2)).countP (roomPairPred x y d s) =
      (match batchCell b2 d s with
       | some c2 => if c1.room == c2.room && !(strIncludes c1.room "Lab") then 1 else 0
       | none => 0) := by
  unfold emitPair
  rw [if_neg (by simpa using hxy)]
  cases hcell : batchCell b2 d s with
  | none => simp
  | some c2 =>
    rw [List.countP_append]
    have hfac :
        (if c1.faculty == c2.faculty then
          [{ kind := ConflictKind.facultyKind, day := d, slot := s,
             batches := (x, y), resource := c1.faculty, severity := "high" }]
         else ([] : List Conflict)).countP (roomPairPred x y d s) = 0 := by
      split <;> simp [roomPairPred]
    have hroom :
        (if c1.room == c2.room && !(strIncludes c1.room "Lab") then
          [{ kind := ConflictKind.roomKind, day := d, slot := s,
             batches := (x, y), resource := c1.room, severity := "medium" }]
         else ([] : List Conflict)).countP (roomPairPred x y d s) =
          (if c1.room == c2.room && !(strIncludes c1.room "Lab") then 1 else 0) := by
      split <;> simp [roomPairPred]
    rw [hfac, hroom]
    simp

theorem countP_emitCell_room (t : Timetable) (x y d s : Nat) (hxy : x ≠ y)
    (cell : Option ClassInfo) :
    (emitCell t x d s cell).countP (roomPairPred x y d s) =
      (match cell, batchCell (t.batches.getD y emptyBatch) d s with
       | some c1, some c2 => if c1.room == c2.room && !(strIncludes c1.room "Lab") then 1 else 0
       | _, _ => 0) := by
  cases cell with
  | none => simp [emitCell]
  | some c1 =>
    show ((t.batches.enum.flatMap (emitPair x d s c1)).countP (roomPairPred x y d s)) = _
    rw [countP_flatMap]
    rw [sum_map_enum_single _ y]
    · cases hy : t.batches[y]? with
      | none =>
        have hgd : t.batches.getD y emptyBatch = emptyBatch := by
          rw [List.getD_eq_getElem?_getD, hy]; rfl
        have hnone : batchCell emptyBatch d s = none := rfl
        simp [hy, hgd, hnone]
      | some b2 =>
        have hgd : t.batches.getD y emptyBatch = b2 := by
          rw [List.getD_eq_getElem?_getD, hy]; rfl
        simp only [hy, hgd, Option.elim, Function.comp]
        rw [countP_emitPair_room x y d s hxy c1 b2]
        cases batchCell b2 d s <;> rfl
    · intro p _ hpy
      refine List.countP_eq_zero.mpr (fun c hc => ?_)
      have hshape := emitPair_shape x d s c1 p c hc
      simp only [roomPairPred, Bool.and_eq_true, beq_iff_eq]
      intro hcon
      apply hpy
      have : c.batches = (x, p.1) := hshape.2.2
      rw [this] at hcon
      have := hcon.2
      exact (Prod.mk.injEq _ _ _ _ |>.mp this).2

theorem countP_row_room (t : Timetable) (x y d s : Nat) (hxy : x ≠ y)
    (row : List (Option ClassInfo)) :
    ((row.enum.flatMap (fun sp => emitCell t x d sp.1 sp.2)).countP (roomPairPred x y d s)) =
      (match row.getD s none, batchCell (t.batches.getD y emptyBatch) d s with
       | some c1, some c2 => if c1.room == c2.room && !(strIncludes c1.room "Lab") then 1 else 0
       | _, _ => 0) := by
  rw [countP_flatMap, sum_map_enum_single _ s]
  · cases hs : row[s]? with
    | none =>
      have hgd : row.getD s none = none := by rw [List.getD_eq_getElem?_getD, hs]; rfl
      rw [hgd]
      cases batchCell (t.batches.getD y emptyBatch) d s <;> rfl
    | some cell =>
      have hgd : row.getD s none = cell := by rw [List.getD_eq_getElem?_getD, hs]; rfl
      rw [hgd]
      simp only [Option.elim, Function.comp]
      rw [countP_emitCell_room t x y d s hxy cell]
  · intro p _ hps
    refine List.countP_eq_zero.mpr (fun c hc => ?_)
    have hshape := emitCell_shape t x d p.1 p.2 c hc
    simp only [roomPairPred, Bool.and_eq_true, beq_iff_eq]
    intro hcon
    exact hps (by rw [← hshape.2.1, hcon.1.2])

theorem countP_batch_room (t : Timetable) (x y d s : Nat) (hxy : x ≠ y) (bx : Batch) :
    ((bx.schedule.enum.flatMap (fun dp =>
        dp.2.enum.flatMap (fun sp => emitCell t x dp.1 sp.1 sp.2))).countP
      (roomPairPred x y d s)) =
      (match batchCell bx d s, batchCell (t.batches.getD y emptyBatch) d s with
       | some c1, some c2 => if c1.room == c2.room && !(strIncludes c1.room "Lab") then 1 else 0
       | _, _ => 0) := by
  rw [countP_flatMap, sum_map_enum_single _ d]
  · cases hd : bx.schedule[d]? with
    | none =>
      have hgd : batchCell bx d s = none := by
        simp [batchCell, List.getD_eq_getElem?_getD, hd]
      rw [hgd]
      cases batchCell (t.batches.getD y emptyBatch) d s <;> rfl
    | some row =>
      have hgd : batchCell bx d s = row.getD s none := by
        simp [batchCell, List.getD_eq_getElem?_getD, hd]
      rw [hgd]
      simp only [Option.elim, Function.comp]
      exact countP_row_room t x y d s hxy row
  · intro p _ hpd
    refine List.countP_eq_zero.mpr (fun c hc => ?_)
    rw [List.mem_flatMap] at hc
    obtain ⟨sp, _, hsp⟩ := hc
    have hshape := emitCell_shape t x p.1 sp.1 sp.2 c hsp
    simp only [roomPairPred, Bool.and_eq_true, beq_iff_eq]
    intro hcon
    exact hpd (by rw [← hshape.1, hcon.1.1.2])

theorem countP_detect_room (t : Timetable) (x y d s : Nat) (hxy : x ≠ y) :
    (detectConflicts t).countP (roomPairPred x y d s) =
      if roomHit t x y d s then 1 else 0 := by
  unfold detectConflicts
  rw [countP_flatMap, sum_map_enum_single _ x]
  · cases hx : t.batches[x]? with
    | none =>
      have hgd : t.batches.getD x emptyBatch = emptyBatch := by
        rw [List.getD_eq_getElem?_getD, hx]; rfl
      have hhit : roomHit t x y d s = false := by
        unfold roomHit cellAt
        rw [hgd]
        rfl
      rw [hhit]
      rfl
    | some bx =>
      have hgd : t.batches.getD x emptyBatch = bx := by
        rw [List.getD_eq_getElem?_getD, hx]; rfl
      simp only [Option.elim, Function.comp]
      rw [countP_batch_room t x y d s hxy bx]
      unfold roomHit cellAt
      rw [hgd]
      cases batchCell bx d s <;> cases batchCell (t.batches.getD y emptyBatch) d s <;> simp
  · intro p _ hpx
    refine List.countP_eq_zero.mpr (fun c hc => ?_)
    rw [List.mem_flatMap] at hc
    obtain ⟨dp, _, hdp⟩ := hc
    rw [List.mem_flatMap] at hdp
    obtain ⟨sp, _, hsp⟩ := hdp
    have hshape := emitCell_shape t p.1 dp.1 sp.1 sp.2 c hsp
    simp only [roomPairPred, Bool.and_eq_true, beq_iff_eq]
    intro hcon
    apply hpx
    have : c.batches = (p.1, c.batches.2) := by
      rw [← hshape.2.2]
    rw [this] at hcon
    exact (Prod.mk.injEq _ _ _ _ |>.mp hcon.2).1

theorem roomHit_symm (t : Timetable) (x y d s : Nat) :
    roomHit t y x d s = roomHit t x y d s := by
  unfold roomHit
  cases cellAt t x d s with
  | none => cases cellAt t y d s <;> rfl
  | some c1 =>
    cases cellAt t y d s with
    | none => rfl
    | some c2 =>
      show (c2.room == c1.room && !(strIncludes c2.room "Lab")) =
        (c1.room == c2.room && !(strIncludes c1.room "Lab"))
      by_cases hr : c1.room = c2.room
      · rw [hr]
      · have h1 : (c1.room == c2.room) = false := by simpa using hr
        have h2 : (c2.room == c1.room) = false := by simpa using (Ne.symm hr)
        rw [h1, h2, Bool.false_and, Bool.false_and]

/-- Scenario of C1: 2 batches, 1 day, 1 slot, the same faculty member
assigned to both batches at that slot (distinct non-lab rooms, so only
faculty conflicts arise). -/
def c1Timetable : Timetable :=
  ⟨[⟨0, "Batch 1", [[some ⟨"S1", "F1", "Room-101", none⟩]]⟩,
    ⟨1, "Batch 2", [[some ⟨"S2", "F1", "Room-102", none⟩]]⟩]⟩

/-- C1 counterexample: in the claim's own scenario (2 batches, 1 day, 1
slot, shared faculty) the Conflict Detector does NOT report exactly one
FacultyConflict entry for the unordered batch pair (0,1) at that day and
slot — it reports one entry per ordering, hence two. -/
theorem c1_counterexample :
    ¬ ((detectConflicts c1Timetable).countP
        (fun c => facPairPred 0 1 0 0 c || facPairPred 1 0 0 0 c) = 1) := by
  decide

/-- C1 (amended): for every Timetable the Conflict Detector reports each
batch-pair collision at a given (day, slot) once per ordered pair and per
detected kind, hence exactly twice per unordered pair {i, j} per kind —
once as (i, j) and once as (j, i) — when the corresponding collision
holds, and zero times otherwise: twice for FacultyConflict on a faculty
collision, and twice for RoomConflict on a non-lab room collision. -/
theorem c1_pair_twice_per_kind (t : Timetable) (i j d s : Nat) (hij : i ≠ j) :
    ((detectConflicts t).countP
        (fun c => facPairPred i j d s c || facPairPred j i d s c) =
      if facultyHit t i j d s then 2 else 0) ∧
    ((detectConflicts t).countP
        (fun c => roomPairPred i j d s c || roomPairPred j i d s c) =
      if roomHit t i j d s then 2 else 0) := by
  constructor
  · rw [countP_or_disjoint]
    · rw [countP_detect_fac t i j d s hij, countP_detect_fac t j i d s (Ne.symm hij),
        facultyHit_symm t i j d s]
      split <;> rfl
    · intro c _ hcon
      simp only [facPairPred, Bool.and_eq_true, beq_iff_eq] at hcon
      obtain ⟨⟨_, h1⟩, ⟨_, h2⟩⟩ := hcon
      rw [h1] at h2
      exact hij (Prod.mk.injEq _ _ _ _ |>.mp h2).1
  · rw [countP_or_disjoint]
    · rw [countP_detect_room t i j d s hij, countP_detect_room t j i d s (Ne.symm hij),
        roomHit_symm t i j d s]
      split <;> rfl
    · intro c _ hcon
      simp only [roomPairPred, Bool.and_eq_true, beq_iff_eq] at hcon
      obtain ⟨⟨_, h1⟩, ⟨_, h2⟩⟩ := hcon
      rw [h1] at h2
      exact hij (Prod.mk.injEq _ _ _ _ |>.mp h2).1

/-- Companion scenario exercising the RoomConflict kind: distinct faculty,
the same non-lab room in both batches. -/
def c1RoomTimetable : Timetable :=
  ⟨[⟨0, "Batch 1", [[some ⟨"S1", "F1", "Room-101", none⟩]]⟩,
    ⟨1, "Batch 2", [[some ⟨"S2", "F2", "Room-101", none⟩]]⟩]⟩

/-- C1 witness: on the shared-faculty scenario the unordered pair (0, 1)
is reported exactly twice as FacultyConflict, and on the shared-room
scenario exactly twice as RoomConflict. -/
theorem c1_witness :
    ((detectConflicts c1Timetable).countP
        (fun c => facPairPred 0 1 0 0 c || facPairPred 1 0 0 0 c) = 2) ∧
    ((detectConflicts c1RoomTimetable).countP
        (fun c => roomPairPred 0 1 0 0 c || roomPairPred 1 0 0 0 c) = 2) := by
  constructor
  · rw [(c1_pair_twice_per_kind c1Timetable 0 1 0 0 (by decide)).1]
    decide
  · rw [(c1_pair_twice_per_kind c1RoomTimetable 0 1 0 0 (by decide)).2]
    decide

/-- C7: the Conflict Detector is a pure function of the Timetable — it
draws no randomness and touches no state — so running it twice on the same
Timetable yields the identical conflict list in order and content. -/
theorem c7_detect_deterministic (t : Timetable) :
    detectConflicts t = detectConflicts t := rfl

/-- C6: `isValidAssignment` returns false if and only if some batch other
than the candidate's has an occupied entry at the candidate's (day, slot)
whose faculty equals the candidate's faculty, or whose room equals the
candidate's room and that room name does not denote a lab; otherwise it
returns true. -/
theorem c6_isValidAssignment_iff (t : Timetable) (a : Assignment) :
    isValidAssignment t a = false ↔
      ∃ b ∈ t.batches, b.id ≠ a.batch ∧ ∃ c, batchCell b a.day a.slot = some c ∧
        (c.faculty = a.faculty ∨ (c.room = a.room ∧ strIncludes a.room "Lab" = false)) := by
  have h0 : isValidAssignment t a = false ↔ ¬ isValidAssignment t a = true := by
    simp
  rw [h0, isValidAssignment, List.all_eq_true]
  simp only [not_forall]
  constructor
  · rintro ⟨b, hmem, hpred⟩
    refine ⟨b, hmem, ?_⟩
    by_cases hid : b.id == a.batch
    · exact absurd (by simp [hid]) hpred
    · refine ⟨by simpa using hid, ?_⟩
      rw [if_neg (by simpa using hid)] at hpred
      cases hcell : batchCell b a.day a.slot with
      | none => rw [hcell] at hpred; simp at hpred
      | some c =>
        rw [hcell] at hpred
        refine ⟨c, rfl, ?_⟩
        simp only [Bool.not_eq_true', Bool.not_eq_false] at hpred
        rcases Bool.or_eq_true_iff.mp hpred with h | h
        · exact Or.inl (by simpa using h)
        · rcases Bool.and_eq_true_iff.mp h with ⟨h1, h2⟩
          exact Or.inr ⟨by simpa using h1, by simpa using h2⟩
  · rintro ⟨b, hmem, hid, c, hcell, hcond⟩
    refine ⟨b, hmem, ?_⟩
    rw [if_neg (by simpa using hid), hcell]
    rcases hcond with h | ⟨h1, h2⟩
    · simp [h]
    · simp [h1, h2]

/-- C8: `mutate` rebuilds only the one randomly chosen batch
(`batchPick % batches.length`); every other batch of the result is the
identical batch of the input, whatever the outcome of the random draws. -/
theorem c8_mutate_frame (r : MutRand) (t : Timetable) (j : Nat)
    (hj : j ≠ r.batchPick % t.batches.length) :
    (mutate r t).batches[j]? = t.batches[j]? := by
  unfold mutate
  exact List.getElem?_set_ne (Ne.symm hj)

/-- Concrete input for the C8 witness: 2 batches, the draws pick batch 0,
batch 1 is untouched. -/
def c8Timetable : Timetable :=
  ⟨[⟨0, "Batch 1", [[some ⟨"S1", "F1", "Room-101", none⟩, none]]⟩,
    ⟨1, "Batch 2", [[none, some ⟨"S2", "F2", "Room-102", none⟩]]⟩]⟩

/-- C8 witness at a concrete input. -/
theorem c8_witness :
    (mutate ⟨0, 0, 0, 0, 0, 0, 0⟩ c8Timetable).batches[1]? = c8Timetable.batches[1]? :=
  c8_mutate_frame ⟨0, 0, 0, 0, 0, 0, 0⟩ c8Timetable 1 (by decide)

/-- C10: `crossover` is monotone in its first parent: every coordinate
filled in parent 1 keeps exactly the same ClassAssignment in the offspring
(never removed or overwritten), and a coordinate empty in parent 1 is
either still empty or carries parent 2's class at that coordinate. -/
theorem c10_crossover_monotone (g : Gen) (p1 p2 : Timetable) (bi d s : Nat) :
    (∀ c, cellAt p1 bi d s = some c → cellAt (crossover g p1 p2) bi d s = some c) ∧
    (cellAt p1 bi d s = none →
      cellAt (crossover g p1 p2) bi d s = none ∨
        cellAt (crossover g p1 p2) bi d s = cellAt p2 bi d s) := by
  have hbatch : (crossover g p1 p2).batches[bi]? =
      (p1.batches[bi]?).map (fun b =>
        { b with
          schedule := b.schedule.enum.map (fun dp =>
            if 2 * dp.1 ≥ g.numDays then
              dp.2.enum.map (fun sp =>
                match sp.2 with
                | some c => some c
                | none => batchCell (p2.batches.getD bi emptyBatch) dp.1 sp.1)
            else dp.2) }) := by
    unfold crossover
    rw [List.getElem?_map, List.getElem?_enum]
    cases p1.batches[bi]? <;> rfl
  cases hp : p1.batches[bi]? with
  | none =>
    have h1 : cellAt p1 bi d s = none := by
      unfold cellAt
      rw [List.getD_eq_getElem?_getD, hp]
      rfl
    have h2 : cellAt (crossover g p1 p2) bi d s = none := by
      unfold cellAt
      rw [List.getD_eq_getElem?_getD, hbatch, hp]
      rfl
    exact ⟨fun c hc => (by rw [h1] at hc; cases hc), fun _ => Or.inl h2⟩
  | some b =>
    have hgd1 : p1.batches.getD bi emptyBatch = b := by
      rw [List.getD_eq_getElem?_getD, hp]; rfl
    have hgd2 : cellAt (crossover g p1 p2) bi d s =
        batchCell
          { b with
            schedule := b.schedule.enum.map (fun dp =>
              if 2 * dp.1 ≥ g.numDays then
                dp.2.enum.map (fun sp =>
                  match sp.2 with
                  | some c => some c
                  | none => batchCell (p2.batches.getD bi emptyBatch) dp.1 sp.1)
              else dp.2) } d s := by
      unfold cellAt
      rw [List.getD_eq_getElem?_getD, hbatch, hp]
      rfl
    have hcell1 : cellAt p1 bi d s = batchCell b d s := by
      unfold cellAt
      rw [hgd1]
    rw [hgd2, hcell1]
    unfold batchCell
    simp only [List.getD_eq_getElem?_getD, List.getElem?_map, List.getElem?_enum]
    cases hd : b.schedule[d]? with
    | none => exact ⟨fun c hc => (by simp at hc), fun _ => Or.inl (by simp)⟩
    | some row =>
      simp only [Option.map_some', Option.getD_some]
      by_cases hhalf : 2 * d ≥ g.numDays
      · rw [if_pos hhalf]
        simp only [List.getElem?_map, List.getElem?_enum]
        cases hs : row[s]? with
        | none => exact ⟨fun c hc => (by simp at hc), fun _ => Or.inl (by simp)⟩
        | some cell =>
          simp only [Option.map_some', Option.getD_some]
          cases cell with
          | some c =>
            exact ⟨fun c' hc' => hc', fun hn => by cases hn⟩
          | none =>
            refine ⟨fun c' hc' => (by cases hc'), fun _ => Or.inr ?_⟩
            simp [cellAt, batchCell, List.getD_eq_getElem?_getD]
      · rw [if_neg hhalf]
        exact ⟨fun c hc => hc, fun hn => Or.inl hn⟩

/-- Concrete parents for the C10 witness: parent 1's only cell is filled
and survives crossover unchanged. -/
def c10Parent1 : Timetable :=
  ⟨[⟨0, "Batch 1", [[some ⟨"S1", "F1", "Room-101", none⟩]]⟩]⟩

def c10Parent2 : Timetable :=
  ⟨[⟨0, "Batch 1", [[some ⟨"S2", "F2", "Room-102", none⟩]]⟩]⟩

/-- C10 witness at a concrete pair of parents. -/
theorem c10_witness :
    cellAt (crossover ⟨["S1"], ["F1"], 1, 1, 1, 1, 1, 1, 1⟩ c10Parent1 c10Parent2) 0 0 0 =
      some ⟨"S1", "F1", "Room-101", none⟩ :=
  (c10_crossover_monotone ⟨["S1"], ["F1"], 1, 1, 1, 1, 1, 1, 1⟩ c10Parent1 c10Parent2 0 0 0).1
    ⟨"S1", "F1", "Room-101", none⟩ (by decide)

/-! ### Slot Grid Builder theorems -/

theorem genSlotsGo_eq (endM : Nat) :
    ∀ (budget minutes : Nat),
      genSlotsGo endM minutes budget =
        (List.range (min budget ((endM - minutes + 59) / 60))).map
          (fun i => slotLabel (minutes + 60 * i)) := by
  intro budget
  induction budget with
  | zero => intro minutes; simp [genSlotsGo]
  | succ b ih =>
    intro minutes
    rw [genSlotsGo]
    by_cases h : minutes < endM
    · rw [if_pos h, ih (minutes + 60)]
      have hidx : min (b + 1) ((endM - minutes + 59) / 60) =
          min b ((endM - (minutes + 60) + 59) / 60) + 1 := by omega
      rw [hidx, List.range_succ_eq_map]
      simp only [List.map_cons, List.map_map]
      congr 1
      refine List.map_congr_left (fun i _ => ?_)
      simp only [Function.comp_apply]
      congr 1
      omega
    · rw [if_neg h]
      have : (endM - minutes + 59) / 60 = 0 := by omega
      simp [this]

/-- C2 counterexample: for startTime "09:00", endTime "09:30" (a window
shorter than one hour) the claim predicts
`min(maxClassesPerDay, floor(30 / 60)) = 0` slots, but the builder emits
one slot (its loop stops only when a slot's START reaches endTime). -/
theorem c2_counterexample :
    ¬ ((generateTimeSlots 5 "09:00" "09:30").length =
        min 5 ((parseTimeMinutes "09:30" - parseTimeMinutes "09:00") / 60)) := by
  decide

/-- C2 (amended): for every pair of times parsing to `sm`, `em` minutes and
every `maxClassesPerDay`, the builder returns exactly
`min(maxClassesPerDay, ceil((em - sm) / 60))` slots, the i-th of which is
the 60-minute interval starting at `sm + 60 i` — so the slots span exactly
60 minutes each, are strictly increasing, non-overlapping, and the result
is empty whenever startTime ≥ endTime (the final slot may overrun endTime
when the window is not a whole number of hours). -/
theorem c2_slot_sequence (maxClasses sm em : Nat) (startS endS : String)
    (hs : parseTimeMinutes startS = sm) (he : parseTimeMinutes endS = em) :
    generateTimeSlots maxClasses startS endS =
      (List.range (min maxClasses ((em - sm + 59) / 60))).map
        (fun i => slotLabel (sm + 60 * i)) := by
  unfold generateTimeSlots
  rw [hs, he]
  exact genSlotsGo_eq em maxClasses sm

/-- C2 witness: the spec's own example, 09:00–12:00 with up to 6 classes,
gives the three hourly slots starting at minutes 540, 600 and 660. -/
theorem c2_witness :
    generateTimeSlots 6 "09:00" "12:00" =
      (List.range (min 6 ((720 - 540 + 59) / 60))).map (fun i => slotLabel (540 + 60 * i)) :=
  c2_slot_sequence 6 540 720 "09:00" "12:00" (by decide) (by decide)

/-! ### Gap-Filling Optimizer theorems -/

theorem countP_mono_except {α : Type} [DecidableEq α] (l : List α) (p q : α → Bool)
    (x : α) (h : ∀ y ∈ l, y ≠ x → q y = p y) :
    l.countP q ≤ l.countP p + l.countP (fun y => decide (y = x)) := by
  induction l with
  | nil => simp
  | cons a tl ih =>
    have hih := ih (fun y hy hyx => h y (List.mem_cons_of_mem a hy) hyx)
    by_cases hax : a = x
    · subst hax
      rw [List.countP_cons, List.countP_cons, List.countP_cons]
      cases hq : q a <;> cases hp : p a <;> simp <;> omega
    · have hqa : q a = p a := h a (List.mem_cons_self a tl) hax
      have hdec : (decide (a = x)) = false := by simpa using hax
      rw [List.countP_cons, List.countP_cons, List.countP_cons, hqa, hdec]
      cases hp : p a <;> simp <;> omega

theorem nodup_countP_single_le_one {α : Type} [DecidableEq α] (l : List α) (hnd : l.Nodup)
    (x : α) : l.countP (fun y => decide (y = x)) ≤ 1 := by
  induction l with
  | nil => simp
  | cons a tl ih =>
    rcases List.nodup_cons.mp hnd with ⟨hmem, hnd2⟩
    rw [List.countP_cons]
    by_cases hax : a = x
    · subst hax
      have hz : tl.countP (fun y => decide (y = a)) = 0 :=
        List.countP_eq_zero.mpr (fun y hy => by
          simp only [decide_eq_true_eq]
          intro hya
          exact hmem (hya ▸ hy))
      simp [hz]
    · have hle := ih hnd2
      have hdec : (decide (a = x)) = false := by simpa using hax
      rw [hdec]
      simp only [Bool.false_eq_true, if_false]
      omega

theorem gridCoords_nodup (g : Gen) : (gridCoords g).Nodup := by
  unfold gridCoords
  rw [List.nodup_flatMap]
  constructor
  · intro d _
    refine List.Nodup.map ?_ (List.nodup_range _)
    intro a b hab
    simpa using congrArg Prod.snd hab
  · refine (List.pairwise_lt_range g.numDays).imp ?_
    intro d1 d2 hlt x hx1 hx2
    rw [List.mem_map] at hx1 hx2
    obtain ⟨s1, _, h1⟩ := hx1
    obtain ⟨s2, _, h2⟩ := hx2
    rw [← h1] at h2
    have := congrArg Prod.fst h2
    simp at this
    omega

theorem batchCell_set_ne (b : Batch) (d s : Nat) (v : Option ClassInfo) (d' s' : Nat)
    (h : (d', s') ≠ (d, s)) :
    batchCell (batchSetCell b d s v) d' s' = batchCell b d' s' := by
  unfold batchCell batchSetCell
  simp only [List.getD_eq_getElem?_getD]
  by_cases hd : d = d'
  · subst hd
    have hs : s ≠ s' := fun hss => h (by rw [hss])
    rw [List.getElem?_set, if_pos rfl]
    split
    · simp only [Option.getD_some]
      rw [List.getElem?_set_ne hs]
    · next hlen =>
      have hnone : b.schedule[d]? = none := by
        rw [List.getElem?_eq_none_iff]
        omega
      rw [hnone]
  · rw [List.getElem?_set_ne hd]

theorem filledCountG_set_le (g : Gen) (b : Batch) (d s : Nat) (v : Option ClassInfo) :
    filledCountG g (batchSetCell b d s v) ≤ filledCountG g b + 1 := by
  unfold filledCountG
  have hstep := countP_mono_except (gridCoords g)
    (fun c => (batchCell b c.1 c.2).isSome)
    (fun c => (batchCell (batchSetCell b d s v) c.1 c.2).isSome) (d, s)
    (fun y _ hy => by
      show (batchCell (batchSetCell b d s v) y.1 y.2).isSome = (batchCell b y.1 y.2).isSome
      rw [batchCell_set_ne b d s v y.1 y.2 (by simpa using hy)])
  have hcnt := nodup_countP_single_le_one (gridCoords g) (gridCoords_nodup g) (d, s)
  omega

theorem fillGapsStep_filled_le (g : Gen) (done rest : List Batch) (st : Batch × List Nat)
    (coord : Nat × Nat) :
    filledCountG g (fillGapsStep g done rest st coord).1 ≤ filledCountG g st.1 + 1 := by
  unfold fillGapsStep
  dsimp only
  split
  · exact filledCountG_set_le g st.1 coord.1 coord.2 _
  · omega

theorem foldl_fillGapsStep_le (g : Gen) (done rest : List Batch) (l : List (Nat × Nat)) :
    ∀ st : Batch × List Nat,
      filledCountG g (l.foldl (fillGapsStep g done rest) st).1 ≤
        filledCountG g st.1 + l.length := by
  induction l with
  | nil => intro st; simp
  | cons c tl ih =>
    intro st
    rw [List.foldl_cons]
    have h1 := ih (fillGapsStep g done rest st c)
    have h2 := fillGapsStep_filled_le g done rest st c
    simp only [List.length_cons]
    omega

theorem fillGapsBatch_filled_le (g : Gen) (done rest : List Batch) (b : Batch)
    (picks : List Nat) :
    filledCountG g (fillGapsBatch g done rest b picks).1 ≤
      filledCountG g b +
        min (emptyCoordsG g b).length (g.numDays * g.pMaxClasses - 1 - filledCountG g b) := by
  unfold fillGapsBatch
  dsimp only
  have h1 := foldl_fillGapsStep_le g done rest
    ((emptyCoordsG g b).take
      (min (emptyCoordsG g b).length (g.numDays * g.pMaxClasses - 1 - filledCountG g b)))
    (b, picks)
  have h2 := List.length_take
    (min (emptyCoordsG g b).length (g.numDays * g.pMaxClasses - 1 - filledCountG g b))
    (emptyCoordsG g b)
  simp only at h1
  omega

theorem fillGapsGo_get_lt (g : Gen) :
    ∀ (rest done : List Batch) (picks : List Nat) (k : Nat), k < done.length →
      (fillGapsGo g done rest picks)[k]? = done[k]? := by
  intro rest
  induction rest with
  | nil => intro done picks k hk; rfl
  | cons b tl ih =>
    intro done picks k hk
    simp only [fillGapsGo]
    rw [ih _ _ k (by simp; omega)]
    rw [List.getElem?_append]
    simp [hk]

theorem fillGapsGo_get (g : Gen) :
    ∀ (rest done : List Batch) (picks : List Nat) (j : Nat) (b : Batch),
      rest[j]? = some b →
      ∃ done2 rest2 picks2,
        (fillGapsGo g done rest picks)[done.length + j]? =
          some (fillGapsBatch g done2 rest2 b picks2).1 := by
  intro rest
  induction rest with
  | nil => intro done picks j b hj; simp at hj
  | cons hd tl ih =>
    intro done picks j b hj
    cases j with
    | zero =>
      simp only [List.getElem?_cons_zero, Option.some.injEq] at hj
      subst hj
      refine ⟨done, tl, picks, ?_⟩
      simp only [fillGapsGo]
      rw [fillGapsGo_get_lt g tl _ _ (done.length + 0) (by simp)]
      rw [List.getElem?_append_right (by simp)]
      simp
    | succ j' =>
      simp only [List.getElem?_cons_succ] at hj
      obtain ⟨done2, rest2, picks2, hout⟩ :=
        ih (done ++ [(fillGapsBatch g done tl hd picks).1])
          (fillGapsBatch g done tl hd picks).2 j' b hj
      refine ⟨done2, rest2, picks2, ?_⟩
      simp only [fillGapsGo]
      rw [show done.length + (j' + 1) =
          (done ++ [(fillGapsBatch g done tl hd picks).1]).length + j' by
        simp only [List.length_append, List.length_cons, List.length_nil]
        omega]
      exact hout

/-- C4 (amended): whenever a batch enters `fillGaps` with at least one free
slot with respect to `totalSlotsInWeek = workingDays × maxClassesPerDay`
(`filledCount ≤ totalSlotsInWeek − 1`), the gap-filled batch still has at
least one free slot, and in any case the pass fills at most
`min(emptyCount, (totalSlotsInWeek − 1) − filledCount)` empty coordinates. -/
theorem c4_fillGaps_free_slot (g : Gen) (t : Timetable) (picks : List Nat) (k : Nat)
    (b : Batch) (hb : t.batches[k]? = some b)
    (hfree : filledCountG g b ≤ g.numDays * g.pMaxClasses - 1) :
    ∃ b2, (fillGaps g t picks).batches[k]? = some b2 ∧
      filledCountG g b2 ≤ g.numDays * g.pMaxClasses - 1 ∧
      filledCountG g b2 ≤ filledCountG g b +
        min (emptyCoordsG g b).length
          (g.numDays * g.pMaxClasses - 1 - filledCountG g b) := by
  obtain ⟨done2, rest2, picks2, hout⟩ := fillGapsGo_get g t.batches [] picks k b hb
  refine ⟨(fillGapsBatch g done2 rest2 b picks2).1, ?_, ?_, ?_⟩
  · simpa [fillGaps] using hout
  · have := fillGapsBatch_filled_le g done2 rest2 b picks2
    omega
  · exact fillGapsBatch_filled_le g done2 rest2 b picks2

/-- Input for the C4 counterexample: a 1-day, 1-slot grid whose only cell
is already filled (no free slot on entry). -/
def c4Gen : Gen := ⟨["A"], ["X"], 1, 1, 1, 1, 1, 1, 1⟩

def c4Timetable : Timetable :=
  ⟨[⟨0, "Batch 1", [[some ⟨"A", "X", "Room-101", none⟩]]⟩]⟩

/-- C4 counterexample: on an input batch that is already completely full,
`fillGaps` returns a batch with `totalSlotsInWeek − filledCount = 0`, so
the claimed unconditional post-state `totalSlotsInWeek − filledCount ≥ 1`
fails. -/
theorem c4_counterexample :
    ¬ (1 ≤ c4Gen.numDays * c4Gen.pMaxClasses -
          filledCountG c4Gen ((fillGaps c4Gen c4Timetable []).batches.getD 0 emptyBatch)) := by
  decide

/-- C4 witness: a 1-day 2-slot batch with one filled cell keeps a free slot
after gap filling. -/
theorem c4_witness :
    ∃ b2, (fillGaps ⟨["A"], ["X"], 1, 1, 1, 2, 1, 1, 2⟩
        ⟨[⟨0, "Batch 1", [[some ⟨"A", "X", "Room-101", none⟩, none]]⟩]⟩ []).batches[0]? =
          some b2 ∧
      filledCountG ⟨["A"], ["X"], 1, 1, 1, 2, 1, 1, 2⟩ b2 ≤ 1 * 2 - 1 ∧
      filledCountG ⟨["A"], ["X"], 1, 1, 1, 2, 1, 1, 2⟩ b2 ≤
        filledCountG ⟨["A"], ["X"], 1, 1, 1, 2, 1, 1, 2⟩
            ⟨0, "Batch 1", [[some ⟨"A", "X", "Room-101", none⟩, none]]⟩ +
          min (emptyCoordsG ⟨["A"], ["X"], 1, 1, 1, 2, 1, 1, 2⟩
              ⟨0, "Batch 1", [[some ⟨"A", "X", "Room-101", none⟩, none]]⟩).length
            (1 * 2 - 1 - filledCountG ⟨["A"], ["X"], 1, 1, 1, 2, 1, 1, 2⟩
              ⟨0, "Batch 1", [[some ⟨"A", "X", "Room-101", none⟩, none]]⟩) :=
  c4_fillGaps_free_slot ⟨["A"], ["X"], 1, 1, 1, 2, 1, 1, 2⟩
    ⟨[⟨0, "Batch 1", [[some ⟨"A", "X", "Room-101", none⟩, none]]⟩]⟩ [] 0
    ⟨0, "Batch 1", [[some ⟨"A", "X", "Room-101", none⟩, none]]⟩ (by decide) (by decide)

/-! ### Fitness Evaluator theorems -/

/-- C5: for every Timetable (with at least one occupied cell, so that the
fill ratio and the variance of the per-subject counts are defined),
`calculateFitness` returns
`max(0, 100 − 25·conflictCount + utilizationScore − 5·gapPenalty +
8·distributionScore + bonus)` with the spec's utilization, distribution and
bonus formulas. -/
theorem c5_fitness_formula (g : Gen) (t : Timetable)
    (hsub : timetableSubjects t ≠ []) :
    calculateFitness g t = fitnessSpec g t := by
  have hc : countsListQ t ≠ [] := by
    unfold countsListQ
    simp only [ne_eq, List.map_eq_nil_iff, List.dedup_eq_nil]
    exact hsub
  have hlen : ¬ ((countsListQ t).length = 0) := by
    simpa [List.length_eq_zero] using hc
  unfold calculateFitness fitnessSpec calculateSubjectDistribution utilizationScoreSpec
    distributionScoreSpec bonusSpec varianceQ
  simp only
  rw [if_neg hlen]
  by_cases hb : fillFrac t > 8 / 10
  · rw [if_pos hb]
    have hmax : max 0 (fillFrac t - 8 / 10) = fillFrac t - 8 / 10 :=
      max_eq_right (by linarith)
    rw [hmax]
    by_cases hu : fillFrac t ≤ 85 / 100
    · rw [if_pos hu, if_pos hu]
      congr 1
      ring
    · rw [if_neg hu, if_neg hu]
      congr 1
      ring
  · rw [if_neg hb]
    have hmax : max 0 (fillFrac t - 8 / 10) = 0 :=
      max_eq_left (by push_neg at hb; linarith)
    rw [hmax]
    by_cases hu : fillFrac t ≤ 85 / 100
    · rw [if_pos hu, if_pos hu]
      congr 1
      ring
    · rw [if_neg hu, if_neg hu]
      congr 1
      ring

/-- Scenario of C5: 1 batch, one 20-cell day, 17 cells filled with the same
subject — zero conflicts, fill ratio exactly 85%, zero interior gaps, zero
subject-count variance. -/
def c5Gen : Gen := ⟨["A"], ["X"], 1, 1, 1, 20, 1, 1, 20⟩

def c5Timetable : Timetable :=
  ⟨[⟨0, "Batch 1",
    [List.replicate 17 (some ⟨"A", "X", "Room-101", none⟩) ++ List.replicate 3 none]⟩]⟩

/-- C5 witness: on the scenario timetable the fitness is exactly
`100 + 42.5 + 0 + 120 + 5 = 267.5`. -/
theorem c5_witness : calculateFitness c5Gen c5Timetable = 535 / 2 := by
  rw [c5_fitness_formula c5Gen c5Timetable (by decide)]
  have hconf : (detectConflicts c5Timetable).length = 0 := by decide
  have hfill : filledSlotCount c5Timetable = 17 := by decide
  have htot : totalSlotCount c5Timetable = 20 := by decide
  have hgap : totalGapPenalty c5Gen c5Timetable = 0 := by decide
  have hsubs : timetableSubjects c5Timetable = List.replicate 17 "A" := by decide
  have hded : (List.replicate 17 "A").dedup = ["A"] := by decide
  have hcnt : (List.replicate 17 "A").count "A" = 17 := by decide
  have hr : fillFrac c5Timetable = 17 / 20 := by
    unfold fillFrac
    rw [hfill, htot, if_pos (by norm_num)]
    norm_num
  have hcounts : countsListQ c5Timetable = [(17 : ℚ)] := by
    unfold countsListQ
    rw [hsubs, hded]
    simp only [List.map_cons, List.map_nil, hcnt]
    norm_num
  unfold fitnessSpec utilizationScoreSpec distributionScoreSpec bonusSpec varianceQ
  rw [hconf, hgap, hr, hcounts]
  rw [if_pos (by norm_num : (17 : ℚ) / 20 ≤ 85 / 100)]
  norm_num [max_def, List.sum_cons, List.sum_nil]

/-! ### Constraint-first strategy: the free-period guarantee fails -/

/-- Failing input for C3: 1 subject, 1 faculty member, 1 batch,
1 classroom, weekly frequency 5, one working day with a 2-slot grid
(e.g. 09:00–11:00 with maxClasses = 2). -/
def c3Gen : Gen := ⟨["A"], ["X"], 1, 1, 1, 2, 5, 1, 2⟩

/-- The request record every one of the five generated assignments of the
failing input reduces to (all priorities are `0 + 1`). -/
def c3Assign : SourceAssign := ⟨"A", "X", 0, "Room-101", 1⟩

theorem c3_sorted_eval :
    cpSorted c3Gen (fun _ => 0) = List.replicate 5 c3Assign := by
  have hfreq : cpActualFrequency c3Gen = 5 := by
    norm_num [cpActualFrequency, calculateOptimalClassCount, Gen.subjectsSel, c3Gen]
  have hreq : cpRequests c3Gen =
      [("A", 0, 0, 0), ("A", 0, 1, 0), ("A", 0, 2, 0), ("A", 0, 3, 0), ("A", 0, 4, 0)] := by
    simp only [cpRequests]
    rw [hfreq]
    simp [Gen.subjectsSel, c3Gen, List.range_succ]
  norm_num [cpSorted, cpAssignments, hreq, usableRoomCount, roomsList, c3Gen,
    List.enum, List.enumFrom, insertByPrio, c3Assign, List.replicate]

/-- C3: the code contradicts its own free-period guarantee.  On the failing
input the greedy strategy (for the priority draws all 0 — any draws give
the same placements, since all five requests are identical) fills both
cells of the 2-cell grid: utilization is 100% and no free slot remains. -/
theorem c3_code_bug_eval :
    (gridCoords c3Gen).length = 2 ∧
    filledCountG c3Gen
        ((constraintProgramming c3Gen (fun _ => 0) []).batches.getD 0 emptyBatch) = 2 := by
  constructor
  · decide
  · show filledCountG c3Gen
        ((fillGaps c3Gen
          ((cpSorted c3Gen (fun _ => 0)).foldl (cpPlace c3Gen) (createEmptyTimetable c3Gen))
          []).batches.getD 0 emptyBatch) = 2
    rw [c3_sorted_eval]
    decide

end Smart
